import Mathlib

/-!
Verification of the StandUp standing-desk timer against its specification.

The development shallowly embeds the timing core of the repository:
* the countdown engine of src/hooks/useTimer.ts,
* the elapsed-time engine of src/hooks/useStopwatch.ts,
* the completion/announcement orchestration of
  src/components/StandingDeskTimer.tsx (both variants of the file),
* the voice announcer of src/hooks/useSpeech.ts,
* the persisted settings record of src/types/index.ts.

Times are modelled as natural numbers of seconds; speech parameters as
rationals.
-/

namespace StandUp

/-! ### Countdown engine (src/hooks/useTimer.ts) -/

/-- Transcription of `TimerStatus` (useTimer.ts line 3). -/
inductive TimerStatus
  | idle
  | running
  | paused
  | completed
deriving DecidableEq, Repr

/-- Transcription of the countdown engine state: the hook state
`timeRemaining`, `status` together with the `initialDuration` argument
(useTimer.ts lines 11-14). -/
structure TimerState where
  timeRemaining : Nat
  status : TimerStatus
  initialDuration : Nat
deriving DecidableEq, Repr

namespace Timer

/-- Initial hook state: `useState(initialDuration)`, `useState('idle')`
(useTimer.ts lines 12-13). -/
def init (d : Nat) : TimerState :=
  { timeRemaining := d, status := .idle, initialDuration := d }

/-- `start` (useTimer.ts lines 16-20): `idle`/`paused` become `running`,
otherwise a no-op. -/
def start (s : TimerState) : TimerState :=
  if s.status = .idle ∨ s.status = .paused then { s with status := .running } else s

/-- `pause` (useTimer.ts lines 22-26): `running` becomes `paused`,
otherwise a no-op. -/
def pause (s : TimerState) : TimerState :=
  if s.status = .running then { s with status := .paused } else s

/-- `stop` (useTimer.ts lines 28-31): status to `idle`, remaining restored
to the initial duration. -/
def stop (s : TimerState) : TimerState :=
  { s with status := .idle, timeRemaining := s.initialDuration }

/-- `reset` (useTimer.ts lines 33-36): status to `idle`, remaining restored
to the initial duration. -/
def reset (s : TimerState) : TimerState :=
  { s with status := .idle, timeRemaining := s.initialDuration }

/-- `setDuration` (useTimer.ts lines 38-44): `setTimeRemaining(duration)`
runs unconditionally; the `if (status === 'idle') setStatus('idle')` branch
re-assigns the already-idle status and is a no-op.  The hook never mutates
`initialDuration` (it is the hook's argument). -/
def setDuration (d : Nat) (s : TimerState) : TimerState :=
  let s1 := { s with timeRemaining := d }
  if s.status = .idle then { s1 with status := .idle } else s1

/-- One firing of the 1-second interval callback (useTimer.ts lines 47-57).
The interval exists only while `status === 'running'`; the callback sends
`prev <= 1` to `completed`/`0`, otherwise decrements. -/
def tick (s : TimerState) : TimerState :=
  if s.status = .running then
    if s.timeRemaining ≤ 1 then { s with status := .completed, timeRemaining := 0 }
    else { s with timeRemaining := s.timeRemaining - 1 }
  else s

/-- Derived `progress` (useTimer.ts line 94):
`initialDuration > 0 ? ((initialDuration - timeRemaining) / initialDuration) * 100 : 0`. -/
def progress (s : TimerState) : ℚ :=
  if s.initialDuration > 0 then
    ((s.initialDuration : ℚ) - (s.timeRemaining : ℚ)) / (s.initialDuration : ℚ) * 100
  else 0

end Timer

/-- The countdown engine's user-facing operations other than `setDuration`,
for reachability statements. -/
inductive CoreOp
  | start
  | pause
  | stop
  | reset
  | tick
deriving DecidableEq, Repr

/-- Apply one core operation. -/
def coreStep : CoreOp → TimerState → TimerState
  | .start => Timer.start
  | .pause => Timer.pause
  | .stop => Timer.stop
  | .reset => Timer.reset
  | .tick => Timer.tick

/-- Run a sequence of core operations left to right. -/
def runOps (ops : List CoreOp) (s : TimerState) : TimerState :=
  ops.foldl (fun t c => coreStep c t) s

/-- The trajectory of spec §8's first property: start a fresh countdown of
duration `d`, then apply `i` ticks. -/
def countdownRun (d i : Nat) : TimerState :=
  Timer.tick^[i] (Timer.start (Timer.init d))

/-- The spec's countdown-state invariant (§3): `remaining ≤ configuredDuration`
and `remaining == 0 ⇒ status ∈ {Completed, Idle}`. -/
def TimerInv (s : TimerState) : Prop :=
  s.timeRemaining ≤ s.initialDuration ∧
    (s.timeRemaining = 0 → s.status = .completed ∨ s.status = .idle)

/-- Strengthened inductive invariant used to establish `TimerInv`. -/
def StrongInv (s : TimerState) : Prop :=
  0 < s.initialDuration ∧ s.timeRemaining ≤ s.initialDuration ∧
    (s.timeRemaining = 0 → s.status = .completed)

/-! ### Elapsed-time engine (src/hooks/useStopwatch.ts) -/

/-- Transcription of `StopwatchStatus` (useStopwatch.ts line 3). -/
inductive StopwatchStatus
  | idle
  | running
  | paused
deriving DecidableEq, Repr

/-- Transcription of the stopwatch hook state (useStopwatch.ts lines 19-20). -/
structure StopwatchState where
  timeElapsed : Nat
  status : StopwatchStatus
deriving DecidableEq, Repr

namespace Stopwatch

/-- `start` (useStopwatch.ts lines 23-27). -/
def start (s : StopwatchState) : StopwatchState :=
  if s.status = .idle ∨ s.status = .paused then { s with status := .running } else s

/-- `pause` (useStopwatch.ts lines 29-33). -/
def pause (s : StopwatchState) : StopwatchState :=
  if s.status = .running then { s with status := .paused } else s

/-- `stop` (useStopwatch.ts lines 35-38): status to `idle`, elapsed to `0`. -/
def stop (s : StopwatchState) : StopwatchState :=
  { s with status := .idle, timeElapsed := 0 }

/-- `reset` (useStopwatch.ts lines 40-43): status to `idle`, elapsed to `0`. -/
def reset (s : StopwatchState) : StopwatchState :=
  { s with status := .idle, timeElapsed := 0 }

/-- One firing of the stopwatch interval callback (useStopwatch.ts lines 45-49). -/
def tick (s : StopwatchState) : StopwatchState :=
  if s.status = .running then { s with timeElapsed := s.timeElapsed + 1 } else s

end Stopwatch

/-! ### Session orchestrator (src/components/StandingDeskTimer.tsx)

The completion effect is a React effect whose body runs once per dependency
change while the component is mounted; each run observes the current
`timer.status`.  We model a sequence of effect runs by the list of statuses
they observe, and count how many runs fire the announcement side effects
(alert raise + speech scheduling + dismissal-timer arming). -/

/-- The active session kind (`settings.currentSession`). -/
inductive Session
  | sitting
  | standing
deriving DecidableEq, Repr

/-- Orchestrator state relevant to completion/dismissal sequencing in the
first variant of StandingDeskTimer.tsx: the `showAlert` flag, the session
kind, the standing stopwatch, whether the 300 ms speech-start timeout and
the 15 s dismissal timeout are armed, the announcer's `isSpeaking` flag and
the `hasAnnouncedRef` guard. -/
structure OrchState where
  showAlert : Bool
  session : Session
  standingSw : StopwatchState
  speechTimeoutPending : Bool
  dismissTimeoutPending : Bool
  speaking : Bool
  hasAnnounced : Bool
deriving DecidableEq, Repr

/-- Orchestrator state before any completion. -/
def initialOrch : OrchState :=
  { showAlert := false, session := .sitting,
    standingSw := { timeElapsed := 0, status := .idle },
    speechTimeoutPending := false, dismissTimeoutPending := false,
    speaking := false, hasAnnounced := false }

/-- Body of the guarded completion effect past the guard
(StandingDeskTimer.tsx lines 58-84): sets the guard, raises the alert,
arms the 300 ms speech-start timeout when speech is enabled and supported,
and arms the 15 s dismissal timeout. -/
def completionEffect (speechOn : Bool) (s : OrchState) : OrchState :=
  { s with
    hasAnnounced := true
    showAlert := true
    speechTimeoutPending := speechOn
    dismissTimeoutPending := true }

/-- Firing of the 300 ms speech-start timeout (StandingDeskTimer.tsx
lines 65-73): calls `speech.speak`, so speaking begins. -/
def speechTimeoutFire (s : OrchState) : OrchState :=
  if s.speechTimeoutPending then
    { s with speechTimeoutPending := false, speaking := true }
  else s

/-- `dismissAlert` (StandingDeskTimer.tsx lines 139-147), in source order:
`setShowAlert(false)`; `speech.stop()` (cancels an in-flight utterance
only — the handler holds no handle on the speech-start timeout and clears
no timeout); switch `currentSession` to standing; `standing.reset()`;
`standing.start()`; clear the guard. -/
def dismissAlert (s : OrchState) : OrchState :=
  { s with
    showAlert := false
    speaking := false
    session := .standing
    standingSw := Stopwatch.start (Stopwatch.reset s.standingSw)
    hasAnnounced := false }

/-- Firing of the 15 s dismissal timeout (StandingDeskTimer.tsx
lines 76-84): same body as `dismissAlert`, after which the timeout is
spent. -/
def dismissTimeoutFire (s : OrchState) : OrchState :=
  if s.dismissTimeoutPending then
    { dismissAlert s with dismissTimeoutPending := false }
  else s

/-! ### Voice announcer (src/hooks/useSpeech.ts) -/

/-- Transcription of `SpeechVoice` (useSpeech.ts lines 11-15). -/
structure SpeechVoice where
  name : String
  lang : String
  voiceURI : String
deriving DecidableEq, Repr

/-- Transcription of `SpeechSettings` (useSpeech.ts lines 3-9). -/
structure SpeechSettings where
  enabled : Bool
  voice : Option String
  rate : ℚ
  pitch : ℚ
  volume : ℚ
deriving DecidableEq, Repr

/-- A configured utterance handed to `speechSynthesis.speak`
(useSpeech.ts lines 87-102): text, resolved voice (`none` leaves the
platform default), and clamped parameters. -/
structure Utterance where
  text : String
  voice : Option SpeechVoice
  rate : ℚ
  pitch : ℚ
  volume : ℚ
deriving DecidableEq, Repr

/-- `Math.max(lo, Math.min(hi, x))` as used in useSpeech.ts lines 100-102. -/
def clampQ (lo hi x : ℚ) : ℚ := max lo (min hi x)

/-- `speak` (useSpeech.ts lines 69-131): no-op (`none`) when unsupported or
disabled; otherwise issues one utterance whose voice is the first platform
voice matching the requested id by `voiceURI` or `name` (`none`, the
platform default, when the id matches nothing) and whose rate, pitch and
volume are clamped to `[0.1, 2]`, `[0, 2]`, `[0, 1]`. -/
def speak (isSupported : Bool) (platformVoices : List SpeechVoice)
    (text : String) (settings : SpeechSettings) : Option Utterance :=
  if isSupported = false ∨ settings.enabled = false then none
  else some
    { text := text,
      voice := (match settings.voice with
        | none => none
        | some v => platformVoices.find? fun pv => pv.voiceURI == v || pv.name == v),
      rate := clampQ (1/10) 2 settings.rate,
      pitch := clampQ 0 2 settings.pitch,
      volume := clampQ 0 1 settings.volume }

/-- `voice.lang.toLowerCase().startsWith('en')` (useSpeech.ts lines 35-37),
computed on the string's character list so that it evaluates by
reduction. -/
def isEnglishLang (lang : String) : Bool :=
  List.isPrefixOf "en".data (lang.data.map Char.toLower)

/-- `updateVoices` (useSpeech.ts lines 26-40): the published list is the
English-language subset of the platform voices when nonempty, otherwise
all platform voices. -/
def selectVoices (platform : List SpeechVoice) : List SpeechVoice :=
  if (platform.filter fun v => isEnglishLang v.lang).length > 0 then
    platform.filter fun v => isEnglishLang v.lang
  else platform

/-- `loadVoices` (useSpeech.ts lines 43-47): if the initial enumeration is
nonempty, publish from it at once; otherwise publish from the enumeration
current when the platform's `voiceschanged` signal fires. -/
def publishVoices (initial later : List SpeechVoice) : List SpeechVoice :=
  if initial.length > 0 then selectVoices initial else selectVoices later

/-- A sample English platform voice, for concrete evaluations. -/
def alexVoice : SpeechVoice :=
  { name := "Alex", lang := "en-US", voiceURI := "uri-alex" }

/-- A sample non-English platform voice, for concrete evaluations. -/
def marieVoice : SpeechVoice :=
  { name := "Marie", lang := "fr-FR", voiceURI := "uri-marie" }

/-! ### Persisted settings (src/types/index.ts, persistence per spec §6)

The `useLocalStorage` hook is not among the repository's source files (only
its caller is), so the storage layer is modelled from the spec: one
JSON-serialized `AppSettings` record under the fixed key
`"standing-desk-timer-settings"`, written as a whole-record replace and
read back with a fall-back to the defaults. -/

/-- `AppSettings`: the fields of src/types/index.ts lines 7-14 plus the
`currentSession`/`sessionCount` fields the orchestrator persists
(spec §3). -/
structure AppSettings where
  timerDuration : Nat
  speechEnabled : Bool
  selectedVoice : Option String
  speechRate : ℚ
  speechPitch : ℚ
  speechVolume : ℚ
  currentSession : Session
  sessionCount : Nat
deriving DecidableEq, Repr

/-- `DEFAULT_SETTINGS` (src/types/index.ts lines 23-30), with the spec's
defaults for the session fields. -/
def DEFAULT_SETTINGS : AppSettings :=
  { timerDuration := 15 * 60, speechEnabled := true, selectedVoice := none,
    speechRate := 1, speechPitch := 1, speechVolume := 1,
    currentSession := .sitting, sessionCount := 0 }

/-- Modelled from the spec: a JSON value, the serialization target of the
missing `useLocalStorage` hook ("JSON-serialized AppSettings", §6). -/
inductive Json
  | null
  | bool (b : Bool)
  | num (q : ℚ)
  | str (s : String)
  | obj (fields : List (String × Json))

/-- Field lookup in a JSON object. -/
def getField (j : Json) (k : String) : Option Json :=
  match j with
  | .obj fs => fs.lookup k
  | _ => none

/-- Read a JSON value as a natural number. -/
def asNat (j : Json) : Option Nat :=
  match j with
  | .num q => if q.den = 1 ∧ 0 ≤ q.num then some q.num.toNat else none
  | _ => none

/-- Read a JSON value as a rational number. -/
def asQ (j : Json) : Option ℚ :=
  match j with
  | .num q => some q
  | _ => none

/-- Read a JSON value as a boolean. -/
def asBool (j : Json) : Option Bool :=
  match j with
  | .bool b => some b
  | _ => none

/-- Read a JSON value as a nullable string. -/
def asOptStr (j : Json) : Option (Option String) :=
  match j with
  | .null => some none
  | .str s => some (some s)
  | _ => none

/-- Read a JSON value as a session kind. -/
def asSession (j : Json) : Option Session :=
  match j with
  | .str "sitting" => some .sitting
  | .str "standing" => some .standing
  | _ => none

/-- Serialize an `AppSettings` record field-for-field; an unchosen voice
(`none`) serializes as JSON `null`. -/
def encodeSettings (s : AppSettings) : Json :=
  .obj
    [("timerDuration", .num s.timerDuration),
     ("speechEnabled", .bool s.speechEnabled),
     ("selectedVoice", (match s.selectedVoice with | none => .null | some v => .str v)),
     ("speechRate", .num s.speechRate),
     ("speechPitch", .num s.speechPitch),
     ("speechVolume", .num s.speechVolume),
     ("currentSession", .str (match s.currentSession with
        | .sitting => "sitting"
        | .standing => "standing")),
     ("sessionCount", .num s.sessionCount)]

/-- Deserialize an `AppSettings` record; any missing or ill-typed field
fails the parse. -/
def decodeSettings (j : Json) : Option AppSettings := do
  let timerDuration ← getField j "timerDuration" >>= asNat
  let speechEnabled ← getField j "speechEnabled" >>= asBool
  let selectedVoice ← getField j "selectedVoice" >>= asOptStr
  let speechRate ← getField j "speechRate" >>= asQ
  let speechPitch ← getField j "speechPitch" >>= asQ
  let speechVolume ← getField j "speechVolume" >>= asQ
  let currentSession ← getField j "currentSession" >>= asSession
  let sessionCount ← getField j "sessionCount" >>= asNat
  pure
    { timerDuration := timerDuration, speechEnabled := speechEnabled,
      selectedVoice := selectedVoice, speechRate := speechRate,
      speechPitch := speechPitch, speechVolume := speechVolume,
      currentSession := currentSession, sessionCount := sessionCount }

/-- The fixed storage key (StandingDeskTimer.tsx line 37). -/
def settingsKey : String := "standing-desk-timer-settings"

/-- Modelled from the spec: the key-value store behind the missing
`useLocalStorage` hook.  Earlier entries shadow later ones. -/
abbrev Store := List (String × Json)

/-- Modelled from the spec: writing the settings record is a whole-record
replace under the fixed key. -/
def saveSettings (st : Store) (s : AppSettings) : Store :=
  (settingsKey, encodeSettings s) :: st

/-- Modelled from the spec: reading the settings record at startup; a
missing or corrupt record falls back to the built-in defaults. -/
def loadSettings (st : Store) : AppSettings :=
  match List.lookup settingsKey st with
  | none => DEFAULT_SETTINGS
  | some j => (decodeSettings j).getD DEFAULT_SETTINGS

/-! ## Theorems -/

/-! ### Countdown trajectory (claim C1) -/

lemma countdownRun_zero (d : Nat) :
    countdownRun d 0 = ⟨d, .running, d⟩ := rfl

lemma countdownRun_succ (d i : Nat) :
    countdownRun d (i + 1) = Timer.tick (countdownRun d i) := by
  simp [countdownRun, Function.iterate_succ_apply']

lemma tick_running_big (r d : Nat) (h : 1 < r) :
    Timer.tick ⟨r, .running, d⟩ = ⟨r - 1, .running, d⟩ := by
  have hn : ¬ (r ≤ 1) := by omega
  simp [Timer.tick, hn]

lemma tick_running_one (d : Nat) :
    Timer.tick ⟨1, .running, d⟩ = ⟨0, .completed, d⟩ := rfl

lemma countdownRun_lt (d i : Nat) (h : i < d) :
    countdownRun d i = ⟨d - i, .running, d⟩ := by
  induction i with
  | zero => simp [countdownRun_zero]
  | succ i ih =>
    rw [countdownRun_succ, ih (by omega), tick_running_big (d - i) d (by omega)]
    have h1 : d - i - 1 = d - (i + 1) := by omega
    rw [h1]

lemma countdownRun_last (d : Nat) (hd : 0 < d) :
    countdownRun d d = ⟨0, .completed, d⟩ := by
  obtain ⟨k, rfl⟩ : ∃ k, d = k + 1 := ⟨d - 1, by omega⟩
  rw [countdownRun_succ, countdownRun_lt (k + 1) k (by omega)]
  have h1 : k + 1 - k = 1 := by omega
  rw [h1, tick_running_one]

/-- Claim C1: starting the countdown with duration `d > 0` and ticking `d`
times decrements `remaining` by one per tick (the last tick lands on `0`
rather than going below 1), stays `Running` strictly before tick `d`,
reaches `Completed` exactly at tick `d` — so there is exactly one
transition into `Completed` — with `remaining = 0` and `progress = 100`. -/
theorem countdown_completes_exactly_once (d : Nat) (hd : 0 < d) :
    (∀ i, i ≤ d → (countdownRun d i).timeRemaining = d - i) ∧
    (∀ i, i < d → (countdownRun d i).status = .running) ∧
    (countdownRun d d).status = .completed ∧
    (countdownRun d d).timeRemaining = 0 ∧
    Timer.progress (countdownRun d d) = 100 ∧
    ((Finset.range d).filter fun i =>
        (countdownRun d (i + 1)).status = .completed ∧
        (countdownRun d i).status ≠ .completed).card = 1 := by
  refine ⟨?_, ?_, ?_, ?_, ?_, ?_⟩
  · intro i hi
    rcases Nat.lt_or_ge i d with h | h
    · rw [countdownRun_lt d i h]
    · have hieq : i = d := le_antisymm hi h
      rw [hieq, countdownRun_last d hd]
      show (0 : Nat) = d - d
      omega
  · intro i hi
    rw [countdownRun_lt d i hi]
  · rw [countdownRun_last d hd]
  · rw [countdownRun_last d hd]
  · rw [countdownRun_last d hd]
    have hdq : (d : ℚ) ≠ 0 := Nat.cast_ne_zero.mpr (by omega)
    dsimp only [Timer.progress]
    rw [if_pos hd, Nat.cast_zero, sub_zero, div_self hdq, one_mul]
  · have hset : ((Finset.range d).filter fun i =>
        (countdownRun d (i + 1)).status = .completed ∧
        (countdownRun d i).status ≠ .completed) = {d - 1} := by
      ext i
      simp only [Finset.mem_filter, Finset.mem_range, Finset.mem_singleton]
      constructor
      · rintro ⟨hid, hc, -⟩
        by_contra hne
        have hlt : i + 1 < d := by omega
        rw [countdownRun_lt d (i + 1) hlt] at hc
        exact absurd hc (by simp)
      · rintro rfl
        refine ⟨by omega, ?_, ?_⟩
        · have h1 : (d - 1) + 1 = d := by omega
          rw [h1, countdownRun_last d hd]
        · rw [countdownRun_lt d (d - 1) (by omega)]
          simp
    rw [hset, Finset.card_singleton]

/-- Witness for C1 at `d = 3`. -/
theorem countdown_completes_exactly_once_witness :
    0 < 3 ∧
    ((∀ i, i ≤ 3 → (countdownRun 3 i).timeRemaining = 3 - i) ∧
     (∀ i, i < 3 → (countdownRun 3 i).status = .running) ∧
     (countdownRun 3 3).status = .completed ∧
     (countdownRun 3 3).timeRemaining = 0 ∧
     Timer.progress (countdownRun 3 3) = 100 ∧
     ((Finset.range 3).filter fun i =>
        (countdownRun 3 (i + 1)).status = .completed ∧
        (countdownRun 3 i).status ≠ .completed).card = 1) :=
  ⟨by norm_num, countdown_completes_exactly_once 3 (by norm_num)⟩

/-! ### `setDuration` behaviour (claims C2 and C10) -/

/-- Claim C2, evaluated at the failing input: after `start` and two ticks
of a 900-second countdown the engine is `Running` with `remaining = 898`;
the source's `setDuration(300)` then overwrites `remaining` with `300`
while `Running` and leaves `configuredDuration` at `900`, where the claim
requires `remaining` to stay `898` and only `configuredDuration` to become
`300`. -/
theorem setDuration_overwrites_remaining :
    runOps [CoreOp.start, CoreOp.tick, CoreOp.tick] (Timer.init 900) =
      ⟨898, .running, 900⟩ ∧
    Timer.setDuration 300
        (runOps [CoreOp.start, CoreOp.tick, CoreOp.tick] (Timer.init 900)) =
      ⟨300, .running, 900⟩ :=
  ⟨rfl, rfl⟩

/-- Claim C10: `setDuration` never changes the status (its
`setStatus('idle')` branch runs only when the status is already `idle`),
overwrites the displayed remaining time with the new value in every
status, and leaves the configured duration untouched. -/
theorem setDuration_preserves_status :
    ∀ (d : Nat) (s : TimerState),
      (Timer.setDuration d s).status = s.status ∧
      (Timer.setDuration d s).timeRemaining = d ∧
      (Timer.setDuration d s).initialDuration = s.initialDuration := by
  intro d s
  unfold Timer.setDuration
  split
  · rename_i h
    exact ⟨h.symm, rfl, rfl⟩
  · exact ⟨rfl, rfl, rfl⟩

/-! ### State invariant (claim C4) -/

lemma strongInv_step (c : CoreOp) (s : TimerState) (h : StrongInv s) :
    StrongInv (coreStep c s) := by
  obtain ⟨h1, h2, h3⟩ := h
  unfold StrongInv
  cases c with
  | start =>
    simp only [coreStep, Timer.start]
    split
    · rename_i hcond
      refine ⟨h1, h2, ?_⟩
      intro h0
      rcases hcond with hc | hc <;> simp [h3 h0] at hc
    · exact ⟨h1, h2, h3⟩
  | pause =>
    simp only [coreStep, Timer.pause]
    split
    · rename_i hcond
      refine ⟨h1, h2, ?_⟩
      intro h0
      simp [h3 h0] at hcond
    · exact ⟨h1, h2, h3⟩
  | stop =>
    refine ⟨h1, le_refl _, fun h0 => ?_⟩
    exact absurd (show s.initialDuration = 0 from h0) (by omega)
  | reset =>
    refine ⟨h1, le_refl _, fun h0 => ?_⟩
    exact absurd (show s.initialDuration = 0 from h0) (by omega)
  | tick =>
    simp only [coreStep, Timer.tick]
    split
    · split
      · exact ⟨h1, Nat.zero_le _, fun _ => rfl⟩
      · rename_i hbig
        refine ⟨h1, show s.timeRemaining - 1 ≤ s.initialDuration by omega, fun h0 => ?_⟩
        exact absurd (show s.timeRemaining - 1 = 0 from h0) (by omega)
    · exact ⟨h1, h2, h3⟩

lemma strongInv_runOps (ops : List CoreOp) :
    ∀ s : TimerState, StrongInv s → StrongInv (runOps ops s) := by
  induction ops with
  | nil => exact fun s h => h
  | cons c rest ih => exact fun s h => ih (coreStep c s) (strongInv_step c s h)

/-- Claim C4 (amended): from an initial countdown state of duration
`d > 0`, every state reachable by a sequence of `start`, `pause`, `stop`,
`reset` and `tick` satisfies `remaining ≤ configuredDuration` and
`remaining = 0 → status ∈ {Completed, Idle}`. -/
theorem countdown_invariant_core (d : Nat) (hd : 0 < d) (ops : List CoreOp) :
    TimerInv (runOps ops (Timer.init d)) := by
  have h0 : StrongInv (Timer.init d) := by
    refine ⟨hd, le_refl d, fun h => ?_⟩
    exact absurd (show d = 0 from h) (by omega)
  obtain ⟨-, h2, h3⟩ := strongInv_runOps ops (Timer.init d) h0
  exact ⟨h2, fun h => Or.inl (h3 h)⟩

/-- Witness for the amended C4 at `d = 2` with a start and two ticks. -/
theorem countdown_invariant_core_witness :
    TimerInv (runOps [CoreOp.start, CoreOp.tick, CoreOp.tick] (Timer.init 2)) :=
  countdown_invariant_core 2 (by norm_num) [CoreOp.start, CoreOp.tick, CoreOp.tick]

/-- Counterexample to C4 as stated: one `setDuration 1800` applied to the
freshly created 900-second engine (a reachable state, and both durations
are preset values) yields `remaining = 1800 > 900 = configuredDuration`,
because the source's `setDuration` overwrites `remaining` and never
touches the configured duration. -/
theorem countdown_invariant_violated_by_setDuration :
    (Timer.setDuration 1800 (Timer.init 900)).timeRemaining = 1800 ∧
    (Timer.setDuration 1800 (Timer.init 900)).initialDuration = 900 ∧
    ¬ TimerInv (Timer.setDuration 1800 (Timer.init 900)) :=
  ⟨rfl, rfl, fun h => absurd h.1 (by decide)⟩

/-! ### `stop` versus `reset` (claim C6) -/

/-- Claim C6: on both engines, `stop` and `reset` are the same operation:
from every state each yields exactly the `Idle` state with the counter
restored (`remaining = configuredDuration` for the countdown, `elapsed = 0`
for the stopwatch), and nothing else differs. -/
theorem stop_reset_behaviorally_identical :
    ∀ (s : TimerState) (t : StopwatchState),
      Timer.stop s = Timer.reset s ∧
      Timer.stop s = ⟨s.initialDuration, .idle, s.initialDuration⟩ ∧
      Stopwatch.stop t = Stopwatch.reset t ∧
      Stopwatch.stop t = ⟨0, .idle⟩ :=
  fun _ _ => ⟨rfl, rfl, rfl, rfl⟩

/-! ### Completion announcement guard (claim C3) -/

/-- Claim C5, evaluated at the failing input: after a completion with
speech enabled arms the 300 ms speech-start timeout, a manual
`dismissAlert` leaves that timeout armed (the handler stores no handle to
it and clears no timeout) while it has already started the standing
stopwatch; when the timeout then fires, speech begins after the new
session's engine is running — so manual dismissal cancels neither the
pending speech nor, by itself, the pending auto-dismissal, and speech is
not cancelled before the new engine starts. -/
theorem dismissal_leaves_pending_speech :
    (dismissAlert (completionEffect true initialOrch)).speechTimeoutPending = true ∧
    (dismissAlert (completionEffect true initialOrch)).standingSw.status = .running ∧
    (speechTimeoutFire (dismissAlert (completionEffect true initialOrch))).speaking = true ∧
    (speechTimeoutFire (dismissAlert (completionEffect true initialOrch))).standingSw.status
      = .running :=
  ⟨rfl, rfl, rfl, rfl⟩

/-! ### Speech resilience (claim C7) -/

/-- Claim C7: `speak` is a no-op when speech is unsupported or disabled;
otherwise it issues exactly one utterance without error, and when the
requested voice id matches no platform voice the utterance carries no
explicit voice (the platform default) with clamped parameters. -/
theorem speak_noop_or_default_fallback :
    ∀ (sup : Bool) (voices : List SpeechVoice) (text : String)
      (s : SpeechSettings) (v : String),
      (sup = false ∨ s.enabled = false → speak sup voices text s = none) ∧
      (sup = true → s.enabled = true → s.voice = some v →
        (∀ pv ∈ voices, pv.voiceURI ≠ v ∧ pv.name ≠ v) →
        speak sup voices text s =
          some ⟨text, none, clampQ (1/10) 2 s.rate, clampQ 0 2 s.pitch,
            clampQ 0 1 s.volume⟩) := by
  intro sup voices text s v
  constructor
  · intro h
    unfold speak
    rw [if_pos h]
  · intro hsup hen hv hmiss
    have hfind : voices.find? (fun pv => pv.voiceURI == v || pv.name == v) = none := by
      rw [List.find?_eq_none]
      intro pv hpv
      have hne := hmiss pv hpv
      simp [hne.1, hne.2]
    simp [speak, hsup, hen, hv, hfind]

/-- Witness for C7: disabled support is a no-op, and a stale voice id
falls back to the platform default voice with no error. -/
theorem speak_noop_or_default_fallback_witness :
    speak false [] "Stand up now!" ⟨true, none, 1, 1, 1⟩ = none ∧
    speak true [alexVoice] "Stand up now!" ⟨true, some "uri-gone", 1, 1, 1⟩ =
      some ⟨"Stand up now!", none, clampQ (1/10) 2 1, clampQ 0 2 1, clampQ 0 1 1⟩ :=
  ⟨(speak_noop_or_default_fallback false [] "Stand up now!"
      ⟨true, none, 1, 1, 1⟩ "x").1 (Or.inl rfl),
   (speak_noop_or_default_fallback true [alexVoice] "Stand up now!"
      ⟨true, some "uri-gone", 1, 1, 1⟩ "uri-gone").2 rfl rfl rfl (by decide)⟩

/-! ### Voice enumeration (claim C8) -/

/-- Counterexample to C8 as stated: with platform voices Alex (en-US) and
Marie (fr-FR), the published list drops Marie — `updateVoices` filters to
English-language voices whenever any exist, so the published set is not
one entry per platform voice. -/
theorem voices_list_drops_non_english :
    marieVoice ∈ [alexVoice, marieVoice] ∧
    marieVoice ∉ selectVoices [alexVoice, marieVoice] := by
  exact ⟨by decide, by decide⟩

/-- Claim C8 (amended): the published voice list is exactly the
English-language subset of the platform enumeration when that subset is
nonempty and the whole enumeration otherwise — every published entry is a
platform voice, every English platform voice is published, as soon as one
English voice exists the published list equals the English-language filter
of the enumeration (so every non-English voice is excluded), and with no
English voice the full enumeration is published; when the initial
enumeration is empty the list is produced from the enumeration current at
the platform's `voiceschanged` signal, without the caller polling. -/
theorem voices_selection_spec :
    ∀ (initial later : List SpeechVoice),
      (initial = [] → publishVoices initial later = selectVoices later) ∧
      (∀ pv ∈ selectVoices later, pv ∈ later) ∧
      (∀ pv ∈ later, isEnglishLang pv.lang = true → pv ∈ selectVoices later) ∧
      ((∃ pv ∈ later, isEnglishLang pv.lang = true) →
        selectVoices later = later.filter fun v => isEnglishLang v.lang) ∧
      ((∀ pv ∈ later, isEnglishLang pv.lang = false) → selectVoices later = later) := by
  intro initial later
  refine ⟨?_, ?_, ?_, ?_, ?_⟩
  · rintro rfl
    rfl
  · intro pv hpv
    unfold selectVoices at hpv
    split at hpv
    · exact List.mem_of_mem_filter hpv
    · exact hpv
  · intro pv hpv heng
    have hmem : pv ∈ later.filter (fun x => isEnglishLang x.lang) :=
      List.mem_filter.mpr ⟨hpv, heng⟩
    unfold selectVoices
    rw [if_pos (List.length_pos.mpr (List.ne_nil_of_mem hmem))]
    exact hmem
  · rintro ⟨pv, hpv, heng⟩
    have hmem : pv ∈ later.filter (fun x => isEnglishLang x.lang) :=
      List.mem_filter.mpr ⟨hpv, heng⟩
    unfold selectVoices
    rw [if_pos (List.length_pos.mpr (List.ne_nil_of_mem hmem))]
  · intro hall
    have hnil : later.filter (fun x => isEnglishLang x.lang) = [] := by
      rw [List.filter_eq_nil_iff]
      intro pv hpv
      simp [hall pv hpv]
    unfold selectVoices
    rw [hnil]
    rfl

/-- Witness for the amended C8: an initially empty enumeration publishes
from the later one, the English voice Alex is published, and since an
English voice exists the published list is exactly the English filter of
the enumeration. -/
theorem voices_selection_spec_witness :
    publishVoices [] [alexVoice, marieVoice] = selectVoices [alexVoice, marieVoice] ∧
    alexVoice ∈ selectVoices [alexVoice, marieVoice] ∧
    selectVoices [alexVoice, marieVoice] =
      List.filter (fun v => isEnglishLang v.lang) [alexVoice, marieVoice] :=
  ⟨(voices_selection_spec [] [alexVoice, marieVoice]).1 rfl,
   (voices_selection_spec [] [alexVoice, marieVoice]).2.2.1 alexVoice
      (by decide) (by decide),
   (voices_selection_spec [] [alexVoice, marieVoice]).2.2.2.1
      ⟨alexVoice, by decide, by decide⟩⟩

/-! ### Settings persistence round-trip (claim C9) -/

lemma decode_encode (s : AppSettings) : decodeSettings (encodeSettings s) = some s := by
  obtain ⟨td, se, sv, sr, sp, svol, cs, sc⟩ := s
  cases sv <;> cases cs <;>
    simp [decodeSettings, encodeSettings, getField, asNat, asQ, asBool, asOptStr,
      asSession, List.lookup, Rat.den_natCast, Rat.num_natCast]

/-- Claim C9: writing any `AppSettings` record to the persistence layer
and reloading it reproduces the identical record field-for-field, and in
particular a record with no chosen voice round-trips with
`selectedVoice = none`. -/
theorem settings_roundtrip :
    ∀ (st : Store) (s : AppSettings),
      loadSettings (saveSettings st s) = s ∧
      loadSettings (saveSettings st { s with selectedVoice := none }) =
        { s with selectedVoice := none } := by
  have h : ∀ (st : Store) (s : AppSettings), loadSettings (saveSettings st s) = s := by
    intro st s
    simp [loadSettings, saveSettings, List.lookup, decode_encode]
  intro st s
  exact ⟨h st s, h st _⟩

end StandUp
